import Mathlib

/-!
# Verification of the xarvis contextual memory engine

Shallow embedding of `src/core/memory.py` (class `MemorySystem`): the data
model (`Memory`, `SearchResult`), the public operations (`store`, `search`,
`get_conversation_history`, `get_recent_context`, `update_memory_importance`,
`delete_memory`, `cleanup_old_memories`) and the private helpers they use.

Modelling conventions:
* Python `float` scores (importance, relevance) are embedded as `ℚ` (the code
  performs only field arithmetic and comparisons on them).
* `datetime` values are embedded as `Int` instants; `datetime.now()` is an
  explicit `now` field of the ambient `Env`.
* External collaborators (the sentence-transformers embedder, the chroma
  vector collections, the on-disk append-only log) are oracles in `Env`:
  `embed` is the embedder output (already `Option`-valued, since
  `_generate_embedding` swallows its own errors), `vquery` is the result of
  `collection.query` for a memory-type collection (`none` models a missing
  collection or a raised error, which the code swallows per collection), and
  `diskOk` tells whether file writes succeed.
* Python dictionaries (`memory_index`, `conversation_sessions`) are embedded
  as insertion-ordered association lists, matching dict iteration order.
  `conversation_sessions` holds memory ids; the Python lists hold references
  to the very objects of `memory_index`, so reads of a session go through the
  index and mutations through either view are mutations of the index.
* A Python exception is an `Except String` error; `try/except` blocks that
  swallow are `pyCatch`.
-/

namespace Xarvis

/-- `MemoryType` enum of `memory.py`. -/
inductive MemoryType
  | conversation
  | factual
  | procedural
  | episodic
  | system
deriving DecidableEq

/-- All members of the enum, in declaration order (`list(MemoryType)`). -/
def MemoryType.all : List MemoryType :=
  [.conversation, .factual, .procedural, .episodic, .system]

/-- The `Memory` dataclass. -/
structure Memory where
  id : String
  type : MemoryType
  content : String
  metadata : List (String × String)
  timestamp : Int
  importance : ℚ
  access_count : Nat
  last_accessed : Int
  embedding : Option (List ℚ)
deriving DecidableEq

/-- The `SearchResult` dataclass. -/
structure SearchResult where
  memory : Memory
  relevance_score : ℚ
  context_match : ℚ
deriving DecidableEq

/-- The dict built per entry by `get_conversation_history`. -/
structure HistoryEntry where
  id : String
  content : String
  timestamp : Int
  metadata : List (String × String)
  importance : ℚ
deriving DecidableEq

/-- The dict built per entry by `get_recent_context`. -/
structure ContextEntry where
  id : String
  content : String
  type : MemoryType
  timestamp : Int
  importance : ℚ
  metadata : List (String × String)
deriving DecidableEq

/-- Ambient environment: clock and external collaborators (see header). -/
structure Env where
  now : Int
  embed : String → Option (List ℚ)
  vquery : MemoryType → Option (List (String × ℚ))
  diskOk : Bool

/-- Mutable state of a `MemorySystem` instance.  `vector_db` and
`embedding_model` are the presence flags of the two optional capabilities;
`log` is the content of the on-disk `memories.jsonl` file. -/
structure MemorySystem where
  vector_db : Bool
  embedding_model : Bool
  conversation_sessions : List (String × List String)
  memory_index : List Memory
  log : List Memory
deriving DecidableEq

/-- A freshly constructed `MemorySystem` (before any store). -/
def initSystem (vdb em : Bool) : MemorySystem :=
  { vector_db := vdb, embedding_model := em,
    conversation_sessions := [], memory_index := [], log := [] }

/-- Python `d.get(k)` on a string-keyed dict. -/
def metaGet (md : List (String × String)) (k : String) : Option String :=
  (md.find? (fun p => p.1 = k)).map (fun p => p.2)

/-- Python truthiness of an optional string (`if session_id:`). -/
def strTruthy : Option String → Bool
  | none => false
  | some s => !(s = "")

/-- Python truthiness of an optional list (`if query_embedding:`). -/
def listTruthy : Option (List ℚ) → Bool
  | none => false
  | some [] => false
  | some (_ :: _) => true

/-- Python head slice `l[:limit]` with an `int` bound. -/
def pyHeadSlice (l : List α) (limit : Int) : List α :=
  if 0 ≤ limit then l.take limit.toNat
  else l.take (l.length - (-limit).toNat)

/-- Python tail slice `l[-limit:]` with an `int` bound. -/
def pyTailSlice (l : List α) (limit : Int) : List α :=
  if 0 < limit then l.drop (l.length - limit.toNat)
  else l.drop ((-limit).toNat)

/-- `try: body except: default` for an expression whose value we keep. -/
def pyCatch (body : Except String α) (default : α) : α :=
  match body with
  | .ok a => a
  | .error _ => default

/-- Insert into the ordered association list embedding of a Python dict:
`d[key] = value` overwrites in place if the key exists, else appends. -/
def dictInsert (l : List Memory) (m : Memory) : List Memory :=
  if l.any (fun x => x.id = m.id) then
    l.map (fun x => if x.id = m.id then m else x)
  else l ++ [m]

/-- Lookup of a session's id list (`self.conversation_sessions[sid]`). -/
def lookupSession (ss : List (String × List String)) (sid : String) :
    Option (List String) :=
  (ss.find? (fun p => p.1 = sid)).map (fun p => p.2)

/-- Append a memory id to a session bucket, creating the bucket if absent
(the `if session_id not in ...: = []` / `append` sequence of `store`). -/
def sessionAppend (ss : List (String × List String)) (sid mid : String) :
    List (String × List String) :=
  if ss.any (fun p => p.1 = sid) then
    ss.map (fun p => if p.1 = sid then (p.1, p.2 ++ [mid]) else p)
  else ss ++ [(sid, [mid])]

/-- Char-wise `str.lower()`. -/
def lowerStr (s : String) : String := ⟨s.data.map Char.toLower⟩

/-- Python falsiness of `text.strip()`: the text is all whitespace. -/
def pyBlank (s : String) : Bool := s.data.all (fun c => c.isWhitespace)

/-- Exact embedding of the float division `a / b` for natural operands
(written through `mkRat`, whose value is `(a : ℚ) / b`). -/
def qdivN (a b : Nat) : ℚ := mkRat a b

/-- Exact embedding of `x * 2` on a score (written through `mkRat`). -/
def qdouble (x : ℚ) : ℚ := mkRat (2 * x.num) x.den

/-- Exact embedding of `1 - d` on a distance (written through `mkRat`). -/
def oneSub (d : ℚ) : ℚ := mkRat ((d.den : Int) - d.num) d.den

/-- `needle` is a prefix of `hay` (helper for the substring test). -/
def startsWithL : List Char → List Char → Bool
  | [], _ => true
  | _ :: _, [] => false
  | a :: l, b :: m => a = b && startsWithL l m

/-- Python `needle in hay` on strings, as a scan over the char list. -/
def subList (needle : List Char) : List Char → Bool
  | [] => needle.isEmpty
  | c :: rest => startsWithL needle (c :: rest) || subList needle rest

/-- Stable insertion step of a descending sort: `a` is placed before the
first element it does not rank strictly after nor tie with. -/
def insertBy (le : α → α → Bool) (a : α) : List α → List α
  | [] => [a]
  | b :: l => if le a b then a :: b :: l else b :: insertBy le a l

/-- Stable sort (embedding of Python `list.sort(key=…, reverse=True)` with
`le a b` meaning "`a` may come before `b`"). -/
def sortBy (le : α → α → Bool) : List α → List α
  | [] => []
  | a :: l => insertBy le a (sortBy le l)

/-- Comparator of `_search_fallback`'s final sort: descending lexicographic on
`(relevance_score, memory.importance)`, stable. -/
def fbLe (a b : SearchResult) : Bool :=
  decide (b.relevance_score < a.relevance_score) ||
    (decide (b.relevance_score = a.relevance_score) &&
      decide (b.memory.importance ≤ a.memory.importance))

/-- Comparator of `_search_vector_db`'s final sort: descending relevance. -/
def vLe (a b : SearchResult) : Bool :=
  decide (b.relevance_score ≤ a.relevance_score)

/-- Comparator of `get_recent_context`'s sort: descending lexicographic on
`(timestamp, importance)`. -/
def rcLe (a b : Memory) : Bool :=
  decide (b.timestamp < a.timestamp) ||
    (decide (b.timestamp = a.timestamp) && decide (b.importance ≤ a.importance))

/-- `MemorySystem._generate_embedding`: returns `None` when the embedding
model is absent or the text is whitespace; otherwise the embedder's output
(`env.embed` is already `Option`-valued since errors are swallowed). -/
def generateEmbedding (env : Env) (σ : MemorySystem) (text : String) :
    Option (List ℚ) :=
  if !σ.embedding_model || pyBlank text then none
  else env.embed text

/-- `MemorySystem._persist_memory`: appends the serialized record to the
`memories.jsonl` log; an IO failure is caught and logged, never raised. -/
def persistMemory (env : Env) (m : Memory) (σ : MemorySystem) : MemorySystem :=
  { σ with log := if env.diskOk then σ.log ++ [m] else σ.log }

/-- `MemorySystem.store`.  `freshId` plays `str(uuid.uuid4())`.  The body's
sub-calls (`_generate_embedding`, `_store_in_vector_db`, `_persist_memory`)
all swallow their own exceptions, so the surrounding `try` never re-raises. -/
def store (env : Env) (freshId : String) (content : String)
    (memory_type : MemoryType) (metadata : List (String × String))
    (importance : ℚ) (session_id : Option String) (σ : MemorySystem) :
    Except String (String × MemorySystem) :=
  let embedding := generateEmbedding env σ content
  let memory : Memory :=
    { id := freshId, type := memory_type, content := content,
      metadata := metadata, timestamp := env.now, importance := importance,
      access_count := 0, last_accessed := env.now, embedding := embedding }
  let σ := { σ with memory_index := dictInsert σ.memory_index memory }
  let sessions :=
    if (strTruthy session_id && memory_type == MemoryType.conversation) then
      sessionAppend σ.conversation_sessions (session_id.getD "") freshId
    else σ.conversation_sessions
  let σ := { σ with conversation_sessions := sessions }
  let σ := persistMemory env memory σ
  .ok (freshId, σ)

/-- Total unwrapping of `store` (it always succeeds); used to sequence calls. -/
def storeOk (env : Env) (freshId : String) (content : String)
    (memory_type : MemoryType) (metadata : List (String × String))
    (importance : ℚ) (session_id : Option String) (σ : MemorySystem) :
    String × MemorySystem :=
  match store env freshId content memory_type metadata importance session_id σ with
  | .ok p => p
  | .error _ => ("", σ)

/-- The `continue` guard of `_search_fallback` for the type filter
(`if memory_types and memory.type not in memory_types`): note the Python
truthiness — an empty filter list disables filtering. -/
def typeSkip (memory_types : Option (List MemoryType)) (m : Memory) : Bool :=
  match memory_types with
  | none => false
  | some ts => !ts.isEmpty && !ts.contains m.type

/-- The `continue` guard of `_search_fallback` for the session filter
(`if session_id and memory.metadata.get("session_id") != session_id`). -/
def sessionSkip (session_id : Option String) (m : Memory) : Bool :=
  match session_id with
  | none => false
  | some s => !(s = "") && !(metaGet m.metadata "session_id" == some s)

/-- The scan loop of `_search_fallback` over `memory_index.values()`:
collects a `SearchResult` for every non-skipped memory whose lowered content
contains the lowered query and whose boosted score passes `min_relevance`.
Raises `ZeroDivisionError` when a matched content has length zero. -/
def fallbackCollect (qLower : String) (memory_types : Option (List MemoryType))
    (min_relevance : ℚ) (session_id : Option String) :
    List Memory → Except String (List SearchResult)
  | [] => .ok []
  | m :: rest =>
    if typeSkip memory_types m || sessionSkip session_id m then
      fallbackCollect qLower memory_types min_relevance session_id rest
    else
      let contentLower := lowerStr m.content
      if subList qLower.data contentLower.data then
        if contentLower.length = 0 then .error "ZeroDivisionError"
        else
          let relevance : ℚ := qdivN qLower.length contentLower.length
          let relevance := min 1 (qdouble relevance)
          do
            let tail ← fallbackCollect qLower memory_types min_relevance session_id rest
            if relevance ≥ min_relevance then
              pure ({ memory := m, relevance_score := relevance,
                      context_match := relevance } :: tail)
            else pure tail
      else fallbackCollect qLower memory_types min_relevance session_id rest

/-- `MemorySystem._search_fallback`: scan, stable sort by
`(relevance_score, importance)` descending, head-slice to `limit`. -/
def searchFallback (query : String) (limit : Int)
    (memory_types : Option (List MemoryType)) (min_relevance : ℚ)
    (session_id : Option String) (σ : MemorySystem) :
    Except String (List SearchResult) := do
  let results ← fallbackCollect (lowerStr query) memory_types min_relevance
      session_id σ.memory_index
  pure (pyHeadSlice (sortBy fbLe results) limit)

/-- `MemorySystem._search_vector_db`: one collection per allowed type (the
Python default `memory_types or list(MemoryType)` treats an empty filter list
as "all types"); each collection query is wrapped in its own `try`, modelled
by `env.vquery` returning `none`; relevance is `1 - distance`; hits below
`min_relevance` or absent from the index are dropped; sort descending by
relevance, head-slice to `limit`.  The outer `try` makes the whole function
total. -/
def searchVectorDb (env : Env) (_query_embedding : List ℚ) (limit : Int)
    (memory_types : Option (List MemoryType)) (min_relevance : ℚ)
    (σ : MemorySystem) : List SearchResult :=
  let types_to_search :=
    match memory_types with
    | none => MemoryType.all
    | some ts => if ts.isEmpty then MemoryType.all else ts
  let results := types_to_search.foldl (fun acc t =>
    match env.vquery t with
    | none => acc
    | some hits => hits.foldl (fun acc2 h =>
        let relevance : ℚ := oneSub h.2
        if relevance ≥ min_relevance then
          match σ.memory_index.find? (fun x => x.id = h.1) with
          | some mem => acc2 ++ [{ memory := mem, relevance_score := relevance,
                                   context_match := relevance }]
          | none => acc2
        else acc2) acc) []
  pyHeadSlice (sortBy vLe results) limit

/-- Body of `MemorySystem.search` (inside its `try`): embed the query, take
the vector path when the vector db is present and the embedding is truthy,
else the lexical fallback. -/
def searchBody (env : Env) (query : String) (limit : Int)
    (memory_types : Option (List MemoryType)) (min_relevance : ℚ)
    (session_id : Option String) (σ : MemorySystem) :
    Except String (List SearchResult) :=
  let query_embedding := generateEmbedding env σ query
  if σ.vector_db && listTruthy query_embedding then
    .ok (searchVectorDb env (query_embedding.getD []) limit memory_types
          min_relevance σ)
  else
    searchFallback query limit memory_types min_relevance session_id σ

/-- `MemorySystem.search`: the `except` clause turns any raised error into an
empty result list.  No branch mutates the store, so the state is returned
alongside to make that observable. -/
def search (env : Env) (query : String) (limit : Int)
    (memory_types : Option (List MemoryType)) (min_relevance : ℚ)
    (session_id : Option String) (σ : MemorySystem) :
    List SearchResult × MemorySystem :=
  (pyCatch (searchBody env query limit memory_types min_relevance session_id σ)
    [], σ)

/-- One `access_count += 1; last_accessed = now` mutation through the shared
`Memory` object with the given id. -/
def touchMemory (now : Int) (mid : String) (idx : List Memory) : List Memory :=
  idx.map (fun m =>
    if m.id = mid then
      { m with access_count := m.access_count + 1, last_accessed := now }
    else m)

/-- Body of `MemorySystem.get_conversation_history` (inside its `try`):
missing session yields `[]`; else the `[-limit:]` suffix of the session's
memories is read, each read incrementing `access_count` and refreshing
`last_accessed` on the shared objects (the index entries). -/
def historyBody (env : Env) (session_id : String) (limit : Int)
    (σ : MemorySystem) : Except String (List HistoryEntry × MemorySystem) :=
  match lookupSession σ.conversation_sessions session_id with
  | none => .ok ([], σ)
  | some ids =>
    let tailIds := pyTailSlice ids limit
    let memories := tailIds.filterMap
      (fun i => σ.memory_index.find? (fun m => m.id = i))
    let history := memories.map (fun m =>
      { id := m.id, content := m.content, timestamp := m.timestamp,
        metadata := m.metadata, importance := m.importance : HistoryEntry })
    let idx := tailIds.foldl (fun acc i => touchMemory env.now i acc)
      σ.memory_index
    .ok (history, { σ with memory_index := idx })

/-- `MemorySystem.get_conversation_history` with its catch-all. -/
def get_conversation_history (env : Env) (session_id : String) (limit : Int)
    (σ : MemorySystem) : List HistoryEntry × MemorySystem :=
  pyCatch (historyBody env session_id limit σ) ([], σ)

/-- Body of `MemorySystem.get_recent_context` (inside its `try`): filter by
time window and (when `session_id is not None`) by the metadata session id;
stable sort descending by `(timestamp, importance)`; head-slice to `limit`. -/
def recentBody (env : Env) (session_id : Option String) (limit : Int)
    (time_window : Int) (σ : MemorySystem) : Except String (List ContextEntry) :=
  let cutoff := env.now - time_window
  let recent := σ.memory_index.filter (fun m =>
    decide (cutoff ≤ m.timestamp) &&
      (match session_id with
       | none => true
       | some s => metaGet m.metadata "session_id" == some s))
  let recent := sortBy rcLe recent
  .ok ((pyHeadSlice recent limit).map (fun m =>
    { id := m.id, content := m.content, type := m.type,
      timestamp := m.timestamp, importance := m.importance,
      metadata := m.metadata : ContextEntry }))

/-- `MemorySystem.get_recent_context` with its catch-all. -/
def get_recent_context (env : Env) (session_id : Option String) (limit : Int)
    (time_window : Int) (σ : MemorySystem) : List ContextEntry :=
  pyCatch (recentBody env session_id limit time_window σ) []

/-- `MemorySystem.update_memory_importance`: on a present id, assign the
supplied importance on the shared object, persist (an append to the log), and
return `True`; on an absent id return `False`. -/
def update_memory_importance (env : Env) (memory_id : String)
    (importance : ℚ) (σ : MemorySystem) : Bool × MemorySystem :=
  match σ.memory_index.find? (fun m => m.id = memory_id) with
  | none => (false, σ)
  | some m =>
    let m' := { m with importance := importance }
    let σ := { σ with memory_index :=
      σ.memory_index.map (fun x => if x.id = memory_id then m' else x) }
    (true, persistMemory env m' σ)

/-- `MemorySystem.delete_memory`: on a present id, drop the id from every
session bucket, delete the index entry, rewrite the log without the record
(a failed rewrite is caught, leaving the log as is) and return `True`. -/
def delete_memory (env : Env) (memory_id : String) (σ : MemorySystem) :
    Bool × MemorySystem :=
  if σ.memory_index.any (fun m => m.id = memory_id) then
    (true,
      { σ with
        conversation_sessions := σ.conversation_sessions.map
          (fun p => (p.1, p.2.filter (fun i => !(i = memory_id)))),
        memory_index := σ.memory_index.filter (fun m => !(m.id = memory_id)),
        log := if env.diskOk then σ.log.filter (fun m => !(m.id = memory_id))
               else σ.log })
  else (false, σ)

/-- The eviction guard of `cleanup_old_memories`. -/
def sweepCond (env : Env) (max_age : Int) (min_importance : ℚ) (m : Memory) :
    Bool :=
  decide (m.last_accessed < env.now - max_age) &&
    decide (m.importance < min_importance) &&
    decide (m.type ≠ MemoryType.system)

/-- `MemorySystem.cleanup_old_memories`: collect the ids of every memory that
is stale, unimportant and not SYSTEM, then delete them one by one, counting
the successful deletions. -/
def cleanup_old_memories (env : Env) (max_age : Int) (min_importance : ℚ)
    (σ : MemorySystem) : Nat × MemorySystem :=
  let memories_to_delete :=
    (σ.memory_index.filter (sweepCond env max_age min_importance)).map
      (fun m => m.id)
  memories_to_delete.foldl (fun acc mid =>
    let r := delete_memory env mid acc.2
    (if r.1 then acc.1 + 1 else acc.1, r.2)) (0, σ)

/-! ## Concrete fixtures used by witnesses and counterexamples -/

/-- Environment with no embedder output and no vector collections. -/
def plainEnv : Env :=
  { now := 0, embed := fun _ => none, vquery := fun _ => none, diskOk := true }

/-- Like `plainEnv` but every write to the durable log fails. -/
def noDiskEnv : Env :=
  { now := 0, embed := fun _ => none, vquery := fun _ => none, diskOk := false }

/-- Environment with a working embedder and vector collections that exist but
return zero hits. -/
def vecEnv : Env :=
  { now := 0, embed := fun _ => some [1], vquery := fun _ => some [],
    diskOk := true }

/-- A system with neither capability configured. -/
def emptySys : MemorySystem := initSystem false false

/-- The spec's lexical-determinism store: one FACTUAL memory. -/
def foxSys : MemorySystem :=
  (storeOk plainEnv "fox" "the quick brown fox" MemoryType.factual []
    (mkRat 1 2) none emptySys).2

/-- The one memory of `foxSys`. -/
def foxMem : Memory :=
  { id := "fox", type := MemoryType.factual, content := "the quick brown fox",
    metadata := [], timestamp := 0, importance := mkRat 1 2, access_count := 0,
    last_accessed := 0, embedding := none }

/-- `foxSys` plus a second FACTUAL memory that also matches "quick". -/
def fox2Sys : MemorySystem :=
  (storeOk plainEnv "fox2" "quick one" MemoryType.factual [] (mkRat 1 2) none
    foxSys).2

/-- A store holding a single memory with empty content (reachable, since
`store` does not validate content). -/
def blankSys : MemorySystem :=
  (storeOk plainEnv "blank" "" MemoryType.factual [] (mkRat 1 2) none
    emptySys).2

/-- A system with both capabilities on, holding one FACTUAL memory, used with
`vecEnv` (vector search up but returning zero hits). -/
def vecSys : MemorySystem :=
  (storeOk vecEnv "v" "quick brown" MemoryType.factual [] (mkRat 1 2) none
    (initSystem true true)).2

/-- An ancient, worthless SYSTEM memory (for the retention exemption). -/
def sysMem : Memory :=
  { id := "s", type := MemoryType.system, content := "sys", metadata := [],
    timestamp := -100, importance := 0, access_count := 0,
    last_accessed := -100, embedding := none }

/-- An ancient, worthless FACTUAL memory (a sweep candidate). -/
def staleMem : Memory :=
  { id := "o", type := MemoryType.factual, content := "old", metadata := [],
    timestamp := -100, importance := 0, access_count := 0,
    last_accessed := -100, embedding := none }

/-- A store holding `sysMem` and `staleMem`, for exercising the sweep. -/
def sweepSys : MemorySystem :=
  { vector_db := false, embedding_model := false,
    conversation_sessions := [], memory_index := [sysMem, staleMem],
    log := [sysMem, staleMem] }

/-- The stored `Memory` record built by `store`. -/
def storedMem (env : Env) (freshId content : String) (ty : MemoryType)
    (md : List (String × String)) (imp : ℚ) (σ : MemorySystem) : Memory :=
  { id := freshId, type := ty, content := content, metadata := md,
    timestamp := env.now, importance := imp, access_count := 0,
    last_accessed := env.now, embedding := generateEmbedding env σ content }

/-- The relevance score assigned by `_search_fallback` to a matched memory
(the boosted, clamped length ratio on lowered strings). -/
def lexScore (query : String) (m : Memory) : ℚ :=
  min 1 (qdouble (qdivN (lowerStr query).length (lowerStr m.content).length))

/-- Characterization of the memories kept by the lexical scan: passes both
filters, lowered-substring match, and score at or above the threshold. -/
def fbKeeps (query : String) (memory_types : Option (List MemoryType))
    (minr : ℚ) (session_id : Option String) (m : Memory) : Bool :=
  !(typeSkip memory_types m) && !(sessionSkip session_id m) &&
    subList (lowerStr query).data (lowerStr m.content).data &&
    decide (lexScore query m ≥ minr)

/-- The ranked lexical candidate list: the fallback scan's kept results,
sorted, before the final `results[:limit]` slice. -/
def lexRanked (query : String) (memory_types : Option (List MemoryType))
    (minr : ℚ) (session_id : Option String) (σ : MemorySystem) :
    List SearchResult :=
  sortBy fbLe ((σ.memory_index.filter
      (fbKeeps query memory_types minr session_id)).map
    (fun m => { memory := m, relevance_score := lexScore query m,
                context_match := lexScore query m }))

/-- Three CONVERSATION stores with the same session id, from a fresh system
(the spec's session-ordering scenario). -/
def storeThree (e1 e2 e3 : Env) (vdb em : Bool) (sid : String)
    (id1 id2 id3 t1 t2 t3 : String) (md1 md2 md3 : List (String × String))
    (i1 i2 i3 : ℚ) : MemorySystem :=
  (storeOk e3 id3 t3 MemoryType.conversation md3 i3 (some sid)
    (storeOk e2 id2 t2 MemoryType.conversation md2 i2 (some sid)
      (storeOk e1 id1 t1 MemoryType.conversation md1 i1 (some sid)
        (initSystem vdb em)).2).2).2

/-! ## Helper lemmas -/

theorem qdivN_eq (a b : Nat) : qdivN a b = (a : ℚ) / b := by
  rw [qdivN, Rat.mkRat_eq_div]; push_cast; ring

theorem qdouble_eq (x : ℚ) : qdouble x = x * 2 := by
  rw [qdouble, Rat.mkRat_eq_div]
  push_cast
  rw [mul_comm (2 : ℚ), mul_div_right_comm, Rat.num_div_den]

theorem oneSub_eq (d : ℚ) : oneSub d = 1 - d := by
  rw [oneSub, Rat.mkRat_eq_div]
  push_cast
  rw [sub_div, Rat.num_div_den]
  simp [Rat.den_ne_zero, div_self]


theorem mem_dictInsert_self (l : List Memory) (m : Memory) :
    m ∈ dictInsert l m := by
  unfold dictInsert
  split
  · next h =>
    rcases List.any_eq_true.mp h with ⟨x, hx, hid⟩
    refine List.mem_map.mpr ⟨x, hx, ?_⟩
    simp [of_decide_eq_true hid]
  · exact List.mem_append_right _ (List.mem_singleton.mpr rfl)

@[simp] theorem persistMemory_memory_index (env : Env) (m : Memory)
    (σ : MemorySystem) :
    (persistMemory env m σ).memory_index = σ.memory_index := rfl

@[simp] theorem persistMemory_sessions (env : Env) (m : Memory)
    (σ : MemorySystem) :
    (persistMemory env m σ).conversation_sessions = σ.conversation_sessions :=
  rfl

@[simp] theorem persistMemory_vector_db (env : Env) (m : Memory)
    (σ : MemorySystem) : (persistMemory env m σ).vector_db = σ.vector_db := rfl

@[simp] theorem persistMemory_embedding_model (env : Env) (m : Memory)
    (σ : MemorySystem) :
    (persistMemory env m σ).embedding_model = σ.embedding_model := rfl

theorem storeOk_memory_index (env : Env) (freshId content : String)
    (ty : MemoryType) (md : List (String × String)) (imp : ℚ)
    (sid : Option String) (σ : MemorySystem) :
    (storeOk env freshId content ty md imp sid σ).2.memory_index
      = dictInsert σ.memory_index (storedMem env freshId content ty md imp σ) :=
  rfl

theorem storeOk_fst (env : Env) (freshId content : String) (ty : MemoryType)
    (md : List (String × String)) (imp : ℚ) (sid : Option String)
    (σ : MemorySystem) :
    (storeOk env freshId content ty md imp sid σ).1 = freshId := rfl

@[simp] theorem pyCatch_ok (a d : α) : pyCatch (.ok a) d = a := rfl

@[simp] theorem pyCatch_error (e : String) (d : α) :
    pyCatch (.error e) d = d := rfl

@[simp] theorem exBind_err (e : ε) (f : α → Except ε β) :
    (Except.error e : Except ε α) >>= f = .error e := rfl

@[simp] theorem exBind_ok (a : α) (f : α → Except ε β) :
    (Except.ok a : Except ε α) >>= f = f a := rfl

theorem store_isOk (env : Env) (freshId content : String) (ty : MemoryType)
    (md : List (String × String)) (imp : ℚ) (sid : Option String)
    (σ : MemorySystem) :
    (store env freshId content ty md imp sid σ).isOk = true := rfl

theorem storeOk_eq (env : Env) (freshId content : String) (ty : MemoryType)
    (md : List (String × String)) (imp : ℚ) (sid : Option String)
    (σ : MemorySystem) :
    store env freshId content ty md imp sid σ
      = .ok (storeOk env freshId content ty md imp sid σ) := rfl

/-! ## Claim C1 — importance clamping -/

/-- C1 counterexample: `Store` called with importance `1.7` records `1.7`
(not the clamped `1.0`), and `UpdateImportance` with `-0.3` records `-0.3`
(not `0.0`). -/
theorem C1_counterexample :
    ((storeOk plainEnv "a" "x" MemoryType.factual [] (mkRat 17 10) none
        emptySys).2.memory_index.map (fun m => m.importance) = [mkRat 17 10])
    ∧ mkRat 17 10 ≠ 1
    ∧ ((update_memory_importance plainEnv "a" (mkRat (-3) 10)
        (storeOk plainEnv "a" "x" MemoryType.factual [] (mkRat 17 10) none
          emptySys).2).2.memory_index.map (fun m => m.importance)
        = [mkRat (-3) 10])
    ∧ mkRat (-3) 10 ≠ 0 := by decide

/-- C1 (amended): `Store` and `UpdateImportance` record the supplied
importance exactly as given — no clamping to `[0,1]` happens anywhere — and
neither call is rejected whatever the value. -/
theorem C1_thm (env : Env) (freshId content : String) (ty : MemoryType)
    (md : List (String × String)) (imp : ℚ) (sid : Option String)
    (σ : MemorySystem) (mid : String) (mm : Memory)
    (hmid : σ.memory_index.find? (fun m => m.id = mid) = some mm) :
    (∃ σ', store env freshId content ty md imp sid σ = .ok (freshId, σ')
      ∧ ∃ m ∈ σ'.memory_index, m.id = freshId ∧ m.importance = imp)
    ∧ (update_memory_importance env mid imp σ).1 = true
    ∧ ∃ m ∈ (update_memory_importance env mid imp σ).2.memory_index,
        m.id = mid ∧ m.importance = imp := by
  have hid : mm.id = mid := by
    have h := List.find?_some hmid
    simpa using h
  have hmem := List.mem_of_find?_eq_some hmid
  refine ⟨⟨(storeOk env freshId content ty md imp sid σ).2, rfl, ?_⟩, ?_, ?_⟩
  · rw [storeOk_memory_index]
    exact ⟨storedMem env freshId content ty md imp σ,
      mem_dictInsert_self _ _, rfl, rfl⟩
  · unfold update_memory_importance
    rw [hmid]
  · unfold update_memory_importance
    rw [hmid]
    simp only [persistMemory_memory_index]
    exact ⟨{ mm with importance := imp },
      List.mem_map.mpr ⟨mm, hmem, by rw [if_pos hid]⟩, hid, rfl⟩

/-- C1 witness: the amended statement evaluated on a concrete store — the
supplied importance `1.7` is recorded verbatim by both operations. -/
theorem C1_witness :
    (∃ σ', store plainEnv "b" "x" MemoryType.factual [] (mkRat 17 10) none
        foxSys = .ok ("b", σ')
      ∧ ∃ m ∈ σ'.memory_index, m.id = "b" ∧ m.importance = mkRat 17 10)
    ∧ (update_memory_importance plainEnv "fox" (mkRat 17 10) foxSys).1 = true
    ∧ ∃ m ∈ (update_memory_importance plainEnv "fox" (mkRat 17 10)
          foxSys).2.memory_index, m.id = "fox" ∧ m.importance = mkRat 17 10 :=
  C1_thm plainEnv "b" "x" MemoryType.factual [] (mkRat 17 10) none foxSys
    "fox" foxMem (by decide)

/-! ## Claim C2 — empty content rejection -/

/-- C2 counterexample: `Store` with empty content does NOT return an error —
it succeeds, returns the fresh id, and the memory IS created in the index
with empty content. -/
theorem C2_counterexample :
    (store plainEnv "a" "" MemoryType.factual [] (mkRat 1 2) none
      emptySys).isOk = true
    ∧ (storeOk plainEnv "a" "" MemoryType.factual [] (mkRat 1 2) none
        emptySys).1 = "a"
    ∧ ((storeOk plainEnv "a" "" MemoryType.factual [] (mkRat 1 2) none
        emptySys).2.memory_index.map (fun m => m.content)) = [""] := by decide

/-- C2 (amended): `Store` performs no content validation at all — for every
content, empty included, the call succeeds and the memory is created with
that content. -/
theorem C2_thm (env : Env) (freshId content : String) (ty : MemoryType)
    (md : List (String × String)) (imp : ℚ) (sid : Option String)
    (σ : MemorySystem) :
    (store env freshId content ty md imp sid σ).isOk = true
    ∧ ∃ m ∈ (storeOk env freshId content ty md imp sid σ).2.memory_index,
        m.id = freshId ∧ m.content = content := by
  refine ⟨store_isOk env freshId content ty md imp sid σ, ?_⟩
  rw [storeOk_memory_index]
  exact ⟨storedMem env freshId content ty md imp σ,
    mem_dictInsert_self _ _, rfl, rfl⟩

/-! ## Claim C5 — durability failures surface as errors -/

/-- C5 counterexample: with every log write failing, `Store` still reports
success (returns the id) while the log is left untouched — the record is
unpersisted but no error is surfaced. -/
theorem C5_counterexample :
    (store noDiskEnv "a" "x" MemoryType.factual [] (mkRat 1 2) none
      emptySys).isOk = true
    ∧ (storeOk noDiskEnv "a" "x" MemoryType.factual [] (mkRat 1 2) none
        emptySys).1 = "a"
    ∧ (storeOk noDiskEnv "a" "x" MemoryType.factual [] (mkRat 1 2) none
        emptySys).2.log = [] := by decide

/-- C5 (amended): a failing append to the durable log is caught and logged
inside `_persist_memory`; `Store` still returns success with the fresh id and
the log is left unchanged (the record is not persisted). -/
theorem C5_thm (env : Env) (freshId content : String) (ty : MemoryType)
    (md : List (String × String)) (imp : ℚ) (sid : Option String)
    (σ : MemorySystem) (hdisk : env.diskOk = false) :
    (store env freshId content ty md imp sid σ).isOk = true
    ∧ (storeOk env freshId content ty md imp sid σ).2.log = σ.log := by
  refine ⟨store_isOk env freshId content ty md imp sid σ, ?_⟩
  show (persistMemory env _ _).log = σ.log
  unfold persistMemory
  simp [hdisk]

/-- C5 witness: the amended statement at a concrete failing-disk store. -/
theorem C5_witness :
    (store noDiskEnv "w" "hello" MemoryType.factual [] (mkRat 1 2) none
      foxSys).isOk = true
    ∧ (storeOk noDiskEnv "w" "hello" MemoryType.factual [] (mkRat 1 2) none
        foxSys).2.log = foxSys.log :=
  C5_thm noDiskEnv "w" "hello" MemoryType.factual [] (mkRat 1 2) none foxSys
    (by decide)

/-! ## Claim C7 — access bookkeeping on search results -/

/-- C7 counterexample: a lexical search that returns the stored memory leaves
the state — in particular the memory's `access_count` (still `0`) and
`last_accessed` — completely unchanged. -/
theorem C7_counterexample :
    ((search plainEnv "quick" 10 none 0 none foxSys).1.map
      (fun r => r.memory.id) = ["fox"])
    ∧ (search plainEnv "quick" 10 none 0 none foxSys).2 = foxSys
    ∧ (foxSys.memory_index.map (fun m => m.access_count)) = [0] := by decide

/-- C7 (amended): no `Search` path (vector or lexical) updates
`access_count` or `last_accessed` — a search leaves the store state exactly
as it found it; only `get_conversation_history` performs that bookkeeping. -/
theorem C7_thm (env : Env) (query : String) (limit : Int)
    (memory_types : Option (List MemoryType)) (min_relevance : ℚ)
    (session_id : Option String) (σ : MemorySystem) :
    (search env query limit memory_types min_relevance session_id σ).2 = σ :=
  rfl

/-! ## Claim C4 — fallback when the vector path returns zero results -/

/-- C4 counterexample: with both capabilities up (`vector_db` true, non-empty
query embedding) but every collection returning zero hits, `search` returns
the empty set — even though the lexical scan over the same store would have
returned the stored memory. -/
theorem C4_counterexample :
    (search vecEnv "quick" 10 none 0 none vecSys).1 = []
    ∧ vecSys.vector_db = true
    ∧ listTruthy (generateEmbedding vecEnv vecSys "quick") = true
    ∧ ((searchFallback "quick" 10 none 0 none vecSys).toOption.map
        (fun l => l.map (fun r => r.memory.id))) = some ["v"] := by decide

/-- C4 (amended): whenever the vector path is taken (vector db present and a
truthy query embedding), `search` returns exactly the vector-path results —
an empty vector result set is returned as empty, with no lexical fallback. -/
theorem C4_thm (env : Env) (query : String) (limit : Int)
    (memory_types : Option (List MemoryType)) (min_relevance : ℚ)
    (session_id : Option String) (σ : MemorySystem)
    (hv : σ.vector_db = true)
    (he : listTruthy (generateEmbedding env σ query) = true) :
    (search env query limit memory_types min_relevance session_id σ).1
      = searchVectorDb env ((generateEmbedding env σ query).getD []) limit
          memory_types min_relevance σ := by
  unfold search searchBody
  simp only [hv, he, Bool.and_self, if_true, pyCatch_ok]

/-- C4 witness: the amended statement at the concrete zero-hit vector
store. -/
theorem C4_witness :
    (search vecEnv "quick" 10 none 0 none vecSys).1
      = searchVectorDb vecEnv
          ((generateEmbedding vecEnv vecSys "quick").getD []) 10 none 0
          vecSys :=
  C4_thm vecEnv "quick" 10 none 0 none vecSys (by decide) (by decide)

/-! ## Claim C3 — lexical fallback scoring -/

theorem lowerStr_length (s : String) : (lowerStr s).length = s.length := by
  unfold lowerStr String.length
  simp

theorem length_ne_zero_of_ne_empty (s : String) (h : s ≠ "") :
    s.length ≠ 0 := by
  intro h0
  apply h
  have hd : s.data = [] := List.length_eq_zero.mp h0
  cases s
  simp only at hd
  rw [hd]

theorem lexScore_eq (query : String) (m : Memory) :
    lexScore query m
      = max 0 (min 1 (2 * (query.length : ℚ) / (m.content.length : ℚ))) := by
  unfold lexScore
  rw [qdivN_eq, qdouble_eq, lowerStr_length, lowerStr_length]
  have harg : (query.length : ℚ) / (m.content.length : ℚ) * 2
      = 2 * (query.length : ℚ) / (m.content.length : ℚ) := by ring
  rw [harg]
  have hnn : (0 : ℚ) ≤ min 1 (2 * (query.length : ℚ) / (m.content.length : ℚ)) := by
    apply le_min
    · norm_num
    · positivity
  rw [max_eq_right hnn]

theorem fallbackCollect_ok (query : String)
    (memory_types : Option (List MemoryType)) (minr : ℚ)
    (session_id : Option String) :
    ∀ l : List Memory, (∀ m ∈ l, m.content ≠ "") →
      fallbackCollect (lowerStr query) memory_types minr session_id l
        = .ok ((l.filter (fbKeeps query memory_types minr session_id)).map
            (fun m => { memory := m, relevance_score := lexScore query m,
                        context_match := lexScore query m })) := by
  intro l
  induction l with
  | nil => intro _; rfl
  | cons m rest ih =>
    intro hcontent
    have hrest := fun m hm => hcontent m (List.mem_cons_of_mem _ hm)
    have hm := hcontent m (List.mem_cons_self _ _)
    have hlen : ¬ ((lowerStr m.content).length = 0) := by
      rw [lowerStr_length]
      exact length_ne_zero_of_ne_empty _ hm
    unfold fallbackCollect
    by_cases hskip :
        (typeSkip memory_types m || sessionSkip session_id m) = true
    · have hkeep : fbKeeps query memory_types minr session_id m = false := by
        unfold fbKeeps
        rcases Bool.or_eq_true_iff.mp hskip with h | h <;> rw [h] <;> simp
      rw [if_pos hskip, ih hrest]
      simp [List.filter_cons, hkeep]
    · have hskipf : (typeSkip memory_types m || sessionSkip session_id m)
          = false := by simpa using hskip
      have hty : typeSkip memory_types m = false := by
        have h := hskipf
        simp only [Bool.or_eq_false_iff] at h
        exact h.1
      have hsess : sessionSkip session_id m = false := by
        have h := hskipf
        simp only [Bool.or_eq_false_iff] at h
        exact h.2
      rw [if_neg hskip]
      by_cases hsub :
          subList (lowerStr query).data (lowerStr m.content).data = true
      · simp only [hsub]
        rw [if_pos trivial, if_neg hlen, ih hrest]
        simp only [exBind_ok]
        by_cases hrel :
            min 1 (qdouble (qdivN (lowerStr query).length
              (lowerStr m.content).length)) ≥ minr
        · rw [if_pos hrel]
          have hkeep : fbKeeps query memory_types minr session_id m
              = true := by
            unfold fbKeeps
            rw [hty, hsess, hsub]
            simp [lexScore, hrel]
          simp [List.filter_cons, hkeep, lexScore]
          rfl
        · rw [if_neg hrel]
          have hkeep : fbKeeps query memory_types minr session_id m
              = false := by
            unfold fbKeeps
            rw [hty, hsess, hsub]
            simp [lexScore, hrel]
          simp [List.filter_cons, hkeep]
          rfl
      · have hsubf :
            subList (lowerStr query).data (lowerStr m.content).data
              = false := by simpa using hsub
        have hkeep : fbKeeps query memory_types minr session_id m
            = false := by
          unfold fbKeeps
          rw [hsubf]
          simp
        simp only [hsubf]
        rw [if_neg (by simp), ih hrest]
        simp [List.filter_cons, hkeep]

theorem insertBy_perm (le : α → α → Bool) (a : α) (l : List α) :
    (insertBy le a l).Perm (a :: l) := by
  induction l with
  | nil => exact List.Perm.refl _
  | cons b rest ih =>
    unfold insertBy
    split
    · exact List.Perm.refl _
    · exact (ih.cons b).trans (List.Perm.swap a b rest)

theorem sortBy_perm (le : α → α → Bool) (l : List α) :
    (sortBy le l).Perm l := by
  induction l with
  | nil => exact List.Perm.refl _
  | cons a rest ih =>
    exact (insertBy_perm le a (sortBy le rest)).trans (ih.cons a)

theorem pyHeadSlice_of_length_le (l : List α) (n : Int)
    (h : (l.length : Int) ≤ n) : pyHeadSlice l n = l := by
  unfold pyHeadSlice
  split
  · exact List.take_of_length_le (by omega)
  · omega

theorem search_fallback_eq (env : Env) (query : String) (limit : Int)
    (memory_types : Option (List MemoryType)) (minr : ℚ)
    (session_id : Option String) (σ : MemorySystem)
    (hvec : σ.vector_db = false)
    (hcontent : ∀ m ∈ σ.memory_index, m.content ≠ "") :
    (search env query limit memory_types minr session_id σ).1
      = pyHeadSlice (sortBy fbLe
          ((σ.memory_index.filter
              (fbKeeps query memory_types minr session_id)).map
            (fun m => { memory := m, relevance_score := lexScore query m,
                        context_match := lexScore query m }))) limit := by
  unfold search searchBody
  simp only [hvec, Bool.false_and, Bool.false_eq_true, if_false]
  unfold searchFallback
  rw [fallbackCollect_ok query memory_types minr session_id σ.memory_index
    hcontent]
  simp only [exBind_ok]
  rfl

/-- C3: with no vector path available, a filtered memory appears in the
lexical search results iff the lowered query is a substring of its lowered
content and the clamped boosted ratio meets `minRelevance`; every result for
it carries exactly that score `clamp(2*len(query)/len(content), 0, 1)`.
(Hypotheses: non-empty contents — otherwise the scan can raise — and a limit
that does not truncate.) -/
theorem C3_thm (env : Env) (query : String) (limit : Int)
    (memory_types : Option (List MemoryType)) (minr : ℚ)
    (session_id : Option String) (σ : MemorySystem)
    (hvec : σ.vector_db = false)
    (hcontent : ∀ m ∈ σ.memory_index, m.content ≠ "")
    (hlimit : ((σ.memory_index.filter
        (fbKeeps query memory_types minr session_id)).length : Int) ≤ limit)
    (m : Memory) (hm : m ∈ σ.memory_index)
    (hty : typeSkip memory_types m = false)
    (hsess : sessionSkip session_id m = false) :
    ((∃ r ∈ (search env query limit memory_types minr session_id σ).1,
        r.memory = m)
      ↔ (subList (lowerStr query).data (lowerStr m.content).data = true
          ∧ max 0 (min 1 (2 * (query.length : ℚ) / (m.content.length : ℚ)))
              ≥ minr))
    ∧ ∀ r ∈ (search env query limit memory_types minr session_id σ).1,
        r.memory = m →
          r.relevance_score
            = max 0 (min 1 (2 * (query.length : ℚ) / (m.content.length : ℚ))) := by
  have hres := search_fallback_eq env query limit memory_types minr session_id
    σ hvec hcontent
  set spec := (σ.memory_index.filter
      (fbKeeps query memory_types minr session_id)).map
    (fun m => { memory := m, relevance_score := lexScore query m,
                context_match := lexScore query m : SearchResult }) with hspec
  have hlen : ((sortBy fbLe spec).length : Int) ≤ limit := by
    rw [(sortBy_perm fbLe spec).length_eq, hspec, List.length_map]
    exact hlimit
  rw [pyHeadSlice_of_length_le _ _ hlen] at hres
  have hmem : ∀ r, r ∈ (search env query limit memory_types minr session_id
      σ).1 ↔ r ∈ spec := by
    intro r
    rw [hres]
    exact (sortBy_perm fbLe spec).mem_iff
  have hkeep_iff : fbKeeps query memory_types minr session_id m = true
      ↔ (subList (lowerStr query).data (lowerStr m.content).data = true
          ∧ max 0 (min 1 (2 * (query.length : ℚ) / (m.content.length : ℚ)))
              ≥ minr) := by
    unfold fbKeeps
    rw [hty, hsess, ← lexScore_eq]
    simp
  constructor
  · constructor
    · rintro ⟨r, hr, hrm⟩
      rw [hmem] at hr
      rcases List.mem_map.mp hr with ⟨m', hm', hr'⟩
      have hmm : m' = m := by rw [← hrm, ← hr']
      rw [← hkeep_iff, ← hmm]
      exact (List.mem_filter.mp hm').2
    · intro hrhs
      refine ⟨⟨m, lexScore query m, lexScore query m⟩, ?_, rfl⟩
      rw [hmem]
      exact List.mem_map.mpr ⟨m,
        List.mem_filter.mpr ⟨hm, hkeep_iff.mpr hrhs⟩, rfl⟩
  · intro r hr hrm
    rw [hmem] at hr
    rcases List.mem_map.mp hr with ⟨m', _, hr'⟩
    have hmm : m' = m := by rw [← hrm, ← hr']
    rw [← hr', ← hmm]
    exact lexScore_eq query m'

/-- C3 witness: the spec's own example — storing "the quick brown fox" and
searching "quick" with threshold 0 keeps the memory at score `10/19`. -/
theorem C3_witness :
    ((∃ r ∈ (search plainEnv "quick" 10 none 0 none foxSys).1,
        r.memory = foxMem)
      ↔ (subList (lowerStr "quick").data (lowerStr foxMem.content).data = true
          ∧ max 0 (min 1 (2 * (("quick" : String).length : ℚ)
              / ((foxMem.content.length : ℚ)))) ≥ 0))
    ∧ ∀ r ∈ (search plainEnv "quick" 10 none 0 none foxSys).1,
        r.memory = foxMem →
          r.relevance_score
            = max 0 (min 1 (2 * (("quick" : String).length : ℚ)
                / ((foxMem.content.length : ℚ)))) :=
  C3_thm plainEnv "quick" 10 none 0 none foxSys (by decide)
    (by decide) (by decide) foxMem (by decide) (by decide) (by decide)

/-! ## Claim C8 — empty query and non-positive limits -/

/-- C8 counterexample: neither part of the claim holds.  `Search` with an
empty query is not special-cased — the empty string is a substring of every
content, so with `minRelevance = 0` the stored memory is returned (at
relevance `0`) instead of an empty result set; and `Search` with the negative
limit `-1` over a store with two lexical hits returns one result, not an
empty result set. -/
theorem C8_counterexample :
    ((search plainEnv "" 10 none 0 none foxSys).1.map
      (fun r => r.relevance_score) = [0])
    ∧ (search plainEnv "" 10 none 0 none foxSys).1 ≠ []
    ∧ (search plainEnv "quick" (-1) none 0 none fox2Sys).1.length = 1
    ∧ (search plainEnv "quick" (-1) none 0 none fox2Sys).1 ≠ [] := by decide

theorem subList_nil_left (hay : List Char) : subList [] hay = true := by
  cases hay with
  | nil => rfl
  | cons c rest => rfl

theorem pyHeadSlice_zero (l : List α) : pyHeadSlice l 0 = [] := by
  simp [pyHeadSlice]

theorem pyHeadSlice_nil (n : Int) : pyHeadSlice ([] : List α) n = [] := by
  unfold pyHeadSlice
  split <;> simp

theorem fallbackCollect_empty_query (memory_types : Option (List MemoryType))
    (minr : ℚ) (session_id : Option String) (hminr : 0 < minr) :
    ∀ l : List Memory,
      fallbackCollect "" memory_types minr session_id l
          = .error "ZeroDivisionError"
      ∨ fallbackCollect "" memory_types minr session_id l = .ok [] := by
  intro l
  induction l with
  | nil => right; rfl
  | cons m rest ih =>
    have hq0 : qdivN ("" : String).length (lowerStr m.content).length = 0 := by
      rw [show ("" : String).length = 0 from rfl, qdivN, Rat.mkRat_eq_div]
      norm_num
    unfold fallbackCollect
    split
    · exact ih
    · simp only [subList_nil_left, if_true, hq0,
        show qdouble 0 = 0 from by decide,
        show min (1 : ℚ) 0 = 0 from by decide]
      split
      · left; rfl
      · rcases ih with h | h
        · left
          simp only [h, exBind_err]
        · right
          simp only [h, exBind_ok]
          rw [if_neg (not_le.mpr hminr)]
          rfl

/-- C8 (amended): `Search` with an empty query returns an empty result set
whenever `minRelevance > 0` (with `minRelevance ≤ 0` the empty query matches
at relevance `0` and results are returned, as the counterexample shows);
`Search` with `limit = 0` returns an empty result set; and a negative limit
is the Python head slice `results[:limit]`: on the lexical path it keeps all
but the last `|limit|` ranked results, which can be non-empty (as the
counterexample shows). -/
theorem C8_thm (env : Env) (query : String) (limit : Int)
    (memory_types : Option (List MemoryType)) (minr : ℚ)
    (session_id : Option String) (σ : MemorySystem) :
    (0 < minr →
      (search env "" limit memory_types minr session_id σ).1 = [])
    ∧ (search env query 0 memory_types minr session_id σ).1 = []
    ∧ (σ.vector_db = false → (∀ m ∈ σ.memory_index, m.content ≠ "") →
        limit < 0 →
        (search env query limit memory_types minr session_id σ).1
          = (lexRanked query memory_types minr session_id σ).take
              ((lexRanked query memory_types minr session_id σ).length
                - (-limit).toNat)) := by
  refine ⟨?_, ?_, ?_⟩
  · intro hminr
    have hemb : generateEmbedding env σ "" = none := by
      unfold generateEmbedding
      rw [show pyBlank "" = true from rfl]
      simp
    unfold search searchBody
    simp only [hemb, listTruthy, Bool.and_false]
    rw [if_neg (by simp)]
    unfold searchFallback
    rw [show lowerStr "" = "" from rfl]
    rcases fallbackCollect_empty_query memory_types minr session_id hminr
      σ.memory_index with h | h <;>
      simp only [h, exBind_err, exBind_ok, pyCatch_error, pyCatch_ok]
    rw [show sortBy fbLe ([] : List SearchResult) = [] from rfl,
      pyHeadSlice_nil]
    rfl
  · show pyCatch
      (if (σ.vector_db && listTruthy (generateEmbedding env σ query)) then
        Except.ok (searchVectorDb env
          ((generateEmbedding env σ query).getD []) 0 memory_types minr σ)
      else searchFallback query 0 memory_types minr session_id σ) [] = []
    split
    · simp only [pyCatch_ok]
      show pyHeadSlice _ 0 = []
      exact pyHeadSlice_zero _
    · unfold searchFallback
      cases h : fallbackCollect (lowerStr query) memory_types minr session_id
          σ.memory_index with
      | error e => simp only [h, exBind_err, pyCatch_error]
      | ok r =>
        simp only [h, exBind_ok]
        show pyHeadSlice _ 0 = []
        exact pyHeadSlice_zero _
  · intro hvec hcontent hneg
    rw [search_fallback_eq env query limit memory_types minr session_id σ
      hvec hcontent]
    show pyHeadSlice (lexRanked query memory_types minr session_id σ) limit
      = _
    unfold pyHeadSlice
    rw [if_neg (by omega)]

/-- C8 witness: the amended statement at concrete calls — empty query with a
positive threshold, a zero limit, and the negative limit `-1` over two
lexical hits. -/
theorem C8_witness :
    (search plainEnv "" 5 none 1 none foxSys).1 = []
    ∧ (search plainEnv "quick" 0 none 0 none foxSys).1 = []
    ∧ (search plainEnv "quick" (-1) none 0 none fox2Sys).1
        = (lexRanked "quick" none 0 none fox2Sys).take
            ((lexRanked "quick" none 0 none fox2Sys).length
              - (-(-1 : Int)).toNat) :=
  ⟨(C8_thm plainEnv "quick" 5 none 1 none foxSys).1 (by decide),
   (C8_thm plainEnv "quick" 0 none 0 none foxSys).2.1,
   (C8_thm plainEnv "quick" (-1) none 0 none fox2Sys).2.2 (by decide)
     (by decide) (by decide)⟩

/-! ## Claim C10 — read operations never propagate exceptions -/

/-- C10: the three read operations are wrapped in catch-alls: whenever the
body of `search` raises (the only genuinely fallible internal step — e.g. the
lexical scorer's division on an empty matched content), the call returns the
empty list with the state untouched; the bodies of
`get_conversation_history` and `get_recent_context` cannot raise at all, so
those calls never propagate an exception either. -/
theorem C10_thm (env : Env) (query : String) (limit : Int)
    (memory_types : Option (List MemoryType)) (minr : ℚ)
    (session_id : Option String) (σ : MemorySystem) (sid2 : String)
    (limit2 : Int) (sid3 : Option String) (limit3 win : Int) :
    ((searchBody env query limit memory_types minr session_id σ).isOk = false
      → search env query limit memory_types minr session_id σ = ([], σ))
    ∧ (historyBody env sid2 limit2 σ).isOk = true
    ∧ (recentBody env sid3 limit3 win σ).isOk = true := by
  refine ⟨?_, ?_, rfl⟩
  · intro h
    unfold search
    cases hb : searchBody env query limit memory_types minr session_id σ with
    | ok r =>
      rw [hb] at h
      exact absurd (show (true : Bool) = false from h) (by decide)
    | error e => rfl
  · unfold historyBody
    split <;> rfl

/-- C10 witness: a store holding an empty-content memory makes the lexical
scorer divide by zero on an empty query; the body errors and `search`
returns the empty list, state unchanged. -/
theorem C10_witness :
    (searchBody plainEnv "" 10 none 0 none blankSys).isOk = false
    ∧ search plainEnv "" 10 none 0 none blankSys = ([], blankSys)
    ∧ (historyBody plainEnv "s" 1 blankSys).isOk = true
    ∧ (recentBody plainEnv none 1 1 blankSys).isOk = true :=
  ⟨by decide,
   (C10_thm plainEnv "" 10 none 0 none blankSys "s" 1 none 1 1).1 (by decide),
   (C10_thm plainEnv "" 10 none 0 none blankSys "s" 1 none 1 1).2.1,
   (C10_thm plainEnv "" 10 none 0 none blankSys "s" 1 none 1 1).2.2⟩

/-! ## Claim C6 — retention sweep -/

theorem delete_memory_present (env : Env) (mid : String) (σ : MemorySystem)
    (h : σ.memory_index.any (fun m => m.id = mid) = true) :
    (delete_memory env mid σ).1 = true
    ∧ (delete_memory env mid σ).2.memory_index
        = σ.memory_index.filter (fun m => !(m.id = mid)) := by
  unfold delete_memory
  rw [if_pos h]
  exact ⟨rfl, rfl⟩

theorem sweep_foldl (env : Env) (ds : List String) :
    ∀ (σ : MemorySystem) (c : Nat), ds.Nodup →
      (∀ d ∈ ds, d ∈ σ.memory_index.map (fun m => m.id)) →
      (ds.foldl (fun acc mid =>
          let r := delete_memory env mid acc.2
          (if r.1 then acc.1 + 1 else acc.1, r.2)) (c, σ)).1 = c + ds.length
      ∧ (ds.foldl (fun acc mid =>
          let r := delete_memory env mid acc.2
          (if r.1 then acc.1 + 1 else acc.1, r.2)) (c, σ)).2.memory_index
        = σ.memory_index.filter (fun m => !(decide (m.id ∈ ds))) := by
  induction ds with
  | nil =>
    intro σ c _ _
    refine ⟨rfl, ?_⟩
    simp
  | cons d rest ih =>
    intro σ c hnodup hsub
    have hd : d ∈ σ.memory_index.map (fun m => m.id) :=
      hsub d (List.mem_cons_self _ _)
    have hany : σ.memory_index.any (fun m => m.id = d) = true := by
      rcases List.mem_map.mp hd with ⟨m, hmm, hmid⟩
      exact List.any_eq_true.mpr ⟨m, hmm, decide_eq_true hmid⟩
    have hdel := delete_memory_present env d σ hany
    have hnodup' := (List.nodup_cons.mp hnodup).2
    have hdnot : d ∉ rest := (List.nodup_cons.mp hnodup).1
    have hsub' : ∀ d' ∈ rest,
        d' ∈ (delete_memory env d σ).2.memory_index.map (fun m => m.id) := by
      intro d' hd'
      have hne : d' ≠ d := fun he => hdnot (he ▸ hd')
      rcases List.mem_map.mp (hsub d' (List.mem_cons_of_mem _ hd')) with
        ⟨m, hmm, hmid⟩
      refine List.mem_map.mpr ⟨m, ?_, hmid⟩
      rw [hdel.2]
      refine List.mem_filter.mpr ⟨hmm, ?_⟩
      simp only [Bool.not_eq_true']
      exact decide_eq_false (fun he => hne (hmid ▸ he ▸ rfl))
    have hstep := ih (delete_memory env d σ).2 (c + 1) hnodup' hsub'
    rw [List.foldl_cons]
    simp only [hdel.1, if_true]
    refine ⟨?_, ?_⟩
    · rw [hstep.1, List.length_cons]
      omega
    · rw [hstep.2, hdel.2, List.filter_filter]
      apply List.filter_congr
      intro m _
      by_cases h1 : m.id = d
      · simp [h1]
      · by_cases h2 : m.id ∈ rest <;> simp [h1, h2]

/-- C6: `Sweep` removes exactly the memories with `type ≠ SYSTEM`,
`now - last_accessed > maxAge` and `importance < minImportance`, and returns
their count; SYSTEM memories and every memory failing any condition are
left in the store.  (Hypothesis: the index's ids are distinct, the dict-key
invariant.) -/
theorem C6_thm (env : Env) (max_age : Int) (min_importance : ℚ)
    (σ : MemorySystem)
    (hnodup : (σ.memory_index.map (fun m => m.id)).Nodup) :
    (cleanup_old_memories env max_age min_importance σ).1
      = (σ.memory_index.filter (fun m =>
          decide (m.type ≠ MemoryType.system)
          && decide (env.now - m.last_accessed > max_age)
          && decide (m.importance < min_importance))).length
    ∧ (cleanup_old_memories env max_age min_importance σ).2.memory_index
      = σ.memory_index.filter (fun m => !(
          decide (m.type ≠ MemoryType.system)
          && decide (env.now - m.last_accessed > max_age)
          && decide (m.importance < min_importance))) := by
  have hcond : ∀ m : Memory,
      (decide (m.type ≠ MemoryType.system)
        && decide (env.now - m.last_accessed > max_age)
        && decide (m.importance < min_importance))
      = sweepCond env max_age min_importance m := by
    intro m
    unfold sweepCond
    apply Bool.eq_iff_iff.mpr
    simp only [Bool.and_eq_true, decide_eq_true_eq]
    constructor
    · rintro ⟨⟨h1, h2⟩, h3⟩
      exact ⟨⟨by omega, h3⟩, h1⟩
    · rintro ⟨⟨h1, h2⟩, h3⟩
      exact ⟨⟨h3, by omega⟩, h2⟩
  have hds_nodup :
      ((σ.memory_index.filter (sweepCond env max_age min_importance)).map
        (fun m => m.id)).Nodup :=
    hnodup.sublist ((σ.memory_index.filter_sublist).map _)
  have hds_sub : ∀ d ∈ (σ.memory_index.filter
      (sweepCond env max_age min_importance)).map (fun m => m.id),
      d ∈ σ.memory_index.map (fun m => m.id) := by
    intro d hd
    rcases List.mem_map.mp hd with ⟨m, hmm, hmid⟩
    exact List.mem_map.mpr ⟨m, (List.mem_filter.mp hmm).1, hmid⟩
  have hloop := sweep_foldl env
    ((σ.memory_index.filter (sweepCond env max_age min_importance)).map
      (fun m => m.id)) σ 0 hds_nodup hds_sub
  have hinj := List.inj_on_of_nodup_map hnodup
  have hmem_iff : ∀ m ∈ σ.memory_index,
      decide (m.id ∈ (σ.memory_index.filter
        (sweepCond env max_age min_importance)).map (fun m => m.id))
      = sweepCond env max_age min_importance m := by
    intro m hmm
    by_cases hc : sweepCond env max_age min_importance m = true
    · rw [hc]
      apply decide_eq_true
      exact List.mem_map.mpr ⟨m, List.mem_filter.mpr ⟨hmm, hc⟩, rfl⟩
    · rw [Bool.eq_false_iff.mpr hc]
      apply decide_eq_false
      intro hmem
      rcases List.mem_map.mp hmem with ⟨m', hm', hmid⟩
      have : m' = m := hinj (List.mem_filter.mp hm').1 hmm hmid
      exact hc (this ▸ (List.mem_filter.mp hm').2)
  unfold cleanup_old_memories
  refine ⟨?_, ?_⟩
  · rw [hloop.1, List.length_map, Nat.zero_add]
    rw [List.filter_congr (fun m _ => hcond m)]
  · rw [hloop.2]
    apply List.filter_congr
    intro m hmm
    rw [hmem_iff m hmm, hcond m]

/-- C6 witness: a SYSTEM memory and a FACTUAL memory, both ancient and
unimportant — the sweep removes only the FACTUAL one and reports count 1. -/
theorem C6_witness :
    (cleanup_old_memories plainEnv 10 (mkRat 1 2) sweepSys).1
      = (sweepSys.memory_index.filter (fun m =>
          decide (m.type ≠ MemoryType.system)
          && decide (plainEnv.now - m.last_accessed > 10)
          && decide (m.importance < mkRat 1 2))).length
    ∧ (cleanup_old_memories plainEnv 10 (mkRat 1 2) sweepSys).2.memory_index
      = sweepSys.memory_index.filter (fun m => !(
          decide (m.type ≠ MemoryType.system)
          && decide (plainEnv.now - m.last_accessed > 10)
          && decide (m.importance < mkRat 1 2))) :=
  C6_thm plainEnv 10 (mkRat 1 2) sweepSys (by decide)

/-! ## Claim C9 — session ordering of conversation history -/


theorem storeOk_sessions (env : Env) (freshId content : String)
    (ty : MemoryType) (md : List (String × String)) (imp : ℚ)
    (sid : Option String) (σ : MemorySystem) :
    (storeOk env freshId content ty md imp sid σ).2.conversation_sessions
      = if (strTruthy sid && ty == MemoryType.conversation) then
          sessionAppend σ.conversation_sessions (sid.getD "") freshId
        else σ.conversation_sessions := rfl

/-- C9: storing CONVERSATION memories m1, m2, m3 with the same non-empty
session id in that order, `GetConversationHistory` with `limit ≥ 3` returns
them in insertion order, returns at most `limit` entries, and increments
`access_count` and refreshes `last_accessed` on each returned memory. -/
theorem C9_thm (e1 e2 e3 eh : Env) (vdb em : Bool) (sid : String)
    (hsid : sid ≠ "") (id1 id2 id3 : String) (h12 : id1 ≠ id2)
    (h13 : id1 ≠ id3) (h23 : id2 ≠ id3) (t1 t2 t3 : String)
    (md1 md2 md3 : List (String × String)) (i1 i2 i3 : ℚ) (limit : Int)
    (hlim : 3 ≤ limit) :
    (get_conversation_history eh sid limit
        (storeThree e1 e2 e3 vdb em sid id1 id2 id3 t1 t2 t3 md1 md2 md3
          i1 i2 i3)).1.map (fun e => e.id) = [id1, id2, id3]
    ∧ ((get_conversation_history eh sid limit
        (storeThree e1 e2 e3 vdb em sid id1 id2 id3 t1 t2 t3 md1 md2 md3
          i1 i2 i3)).1.length : Int) ≤ limit
    ∧ (get_conversation_history eh sid limit
        (storeThree e1 e2 e3 vdb em sid id1 id2 id3 t1 t2 t3 md1 md2 md3
          i1 i2 i3)).2.memory_index.map
          (fun m => (m.id, m.access_count, m.last_accessed))
      = [(id1, 1, eh.now), (id2, 1, eh.now), (id3, 1, eh.now)] := by
  unfold storeThree
  have hne12 : ¬ (id2 = id1) := fun h => h12 h.symm
  have hne13 : ¬ (id3 = id1) := fun h => h13 h.symm
  have hne23 : ¬ (id3 = id2) := fun h => h23 h.symm
  have hcond : (strTruthy (some sid)
      && (MemoryType.conversation == MemoryType.conversation)) = true := by
    simp [strTruthy, hsid]
  set σ0 := initSystem vdb em with hσ0
  set σ1 := (storeOk e1 id1 t1 MemoryType.conversation md1 i1 (some sid)
    σ0).2 with hσ1
  set σ2 := (storeOk e2 id2 t2 MemoryType.conversation md2 i2 (some sid)
    σ1).2 with hσ2
  set σ3 := (storeOk e3 id3 t3 MemoryType.conversation md3 i3 (some sid)
    σ2).2 with hσ3
  set m1 := storedMem e1 id1 t1 MemoryType.conversation md1 i1 σ0 with hm1
  set m2 := storedMem e2 id2 t2 MemoryType.conversation md2 i2 σ1 with hm2
  set m3 := storedMem e3 id3 t3 MemoryType.conversation md3 i3 σ2 with hm3
  have hs1 : σ1.conversation_sessions = [(sid, [id1])] := by
    rw [hσ1, storeOk_sessions, if_pos hcond]
    rfl
  have hi1 : σ1.memory_index = [m1] := by
    rw [hσ1, storeOk_memory_index]
    rfl
  have hs2 : σ2.conversation_sessions = [(sid, [id1, id2])] := by
    rw [hσ2, storeOk_sessions, if_pos hcond, hs1]
    simp [sessionAppend]
  have hi2 : σ2.memory_index = [m1, m2] := by
    rw [hσ2, storeOk_memory_index, hi1]
    simp [dictInsert, hm1, hm2, storedMem, h12, hne12]
  have hs3 : σ3.conversation_sessions = [(sid, [id1, id2, id3])] := by
    rw [hσ3, storeOk_sessions, if_pos hcond, hs2]
    simp [sessionAppend]
  have hi3 : σ3.memory_index = [m1, m2, m3] := by
    rw [hσ3, storeOk_memory_index, hi2]
    simp [dictInsert, hm1, hm2, hm3, storedMem, h13, h23, hne13, hne23]
  have htail : pyTailSlice [id1, id2, id3] limit = [id1, id2, id3] := by
    unfold pyTailSlice
    rw [if_pos (by omega : (0 : Int) < limit)]
    have h3n : List.length [id1, id2, id3] - limit.toNat = 0 := by
      simp only [List.length]
      omega
    rw [h3n]
    rfl
  have hid1 : m1.id = id1 := rfl
  have hid2 : m2.id = id2 := rfl
  have hid3 : m3.id = id3 := rfl
  have hac1 : m1.access_count = 0 := rfl
  have hac2 : m2.access_count = 0 := rfl
  have hac3 : m3.access_count = 0 := rfl
  have hhist : get_conversation_history eh sid limit σ3
      = ([⟨id1, m1.content, m1.timestamp, m1.metadata, m1.importance⟩,
          ⟨id2, m2.content, m2.timestamp, m2.metadata, m2.importance⟩,
          ⟨id3, m3.content, m3.timestamp, m3.metadata, m3.importance⟩],
         { σ3 with memory_index :=
            [{ m1 with access_count := 1, last_accessed := eh.now },
             { m2 with access_count := 1, last_accessed := eh.now },
             { m3 with access_count := 1, last_accessed := eh.now }] }) := by
    unfold get_conversation_history historyBody
    rw [hs3]
    simp [lookupSession, htail, hi3, pyCatch, touchMemory,
      hid1, hid2, hid3, hac1, hac2, hac3, h12, h13, h23, hne12, hne13,
      hne23]
  rw [hhist]
  refine ⟨by simp, by simp; omega, by simp [hid1, hid2, hid3]⟩


/-- C9 witness: the scenario evaluated at a concrete session. -/
theorem C9_witness :
    (get_conversation_history plainEnv "sess" 10
        (storeThree plainEnv plainEnv plainEnv false false "sess" "h1" "h2"
          "h3" "m1" "m2" "m3" [] [] [] (mkRat 1 2) (mkRat 1 2)
          (mkRat 1 2))).1.map (fun e => e.id) = ["h1", "h2", "h3"]
    ∧ ((get_conversation_history plainEnv "sess" 10
        (storeThree plainEnv plainEnv plainEnv false false "sess" "h1" "h2"
          "h3" "m1" "m2" "m3" [] [] [] (mkRat 1 2) (mkRat 1 2)
          (mkRat 1 2))).1.length : Int) ≤ 10
    ∧ (get_conversation_history plainEnv "sess" 10
        (storeThree plainEnv plainEnv plainEnv false false "sess" "h1" "h2"
          "h3" "m1" "m2" "m3" [] [] [] (mkRat 1 2) (mkRat 1 2)
          (mkRat 1 2))).2.memory_index.map
          (fun m => (m.id, m.access_count, m.last_accessed))
      = [("h1", 1, plainEnv.now), ("h2", 1, plainEnv.now),
         ("h3", 1, plainEnv.now)] :=
  C9_thm plainEnv plainEnv plainEnv plainEnv false false "sess" (by decide)
    "h1" "h2" "h3" (by decide) (by decide) (by decide) "m1" "m2" "m3"
    [] [] [] (mkRat 1 2) (mkRat 1 2) (mkRat 1 2) 10 (by decide)

end Xarvis
